import Mathlib

/-!
# Verification of the rust-webvr OpenVR pose/transform normalization pipeline

Shallow embedding of `src/api/openvr/device.rs` (the pose/transform
normalization pipeline of the `rust-webvr` crate).  `f32` arithmetic is
modelled over `ℝ`; vendor-side data acquisition (out-parameters filled by
the OpenVR FFI calls) is modelled by passing the acquired raw values as
explicit arguments, with `Option` encoding a query that may fail.
-/

namespace RustWebVR

noncomputable section

open Real

/-! ## Vsync/photon time predictor

`OpenVRDevice::get_seconds_to_photons` (device.rs lines 310-327).
`GetTimeSinceLastVsync` either fails (returns 0) or fills `seconds_last_vsync`:
modelled as `Option ℝ`.  `get_float_property` for the display frequency and the
vsync-to-photon latency returns `Option ℝ` exactly as in the source
(`ETrackedPropertyError` ≠ success ↦ `none`). -/

/-- Embedding of `get_seconds_to_photons` (device.rs 310-327).  Mirrors the
source control flow: early `return 0.04` when the vsync timer query failed,
then `display_freq = property.unwrap_or(90.0)`, `frame_duration = 1.0 /
display_freq`, then `if let Some(vsync_to_photons)` producing
`frame_duration - seconds_last_vsync + vsync_to_photons`, else `0.04`. -/
def get_seconds_to_photons (seconds_last_vsync : Option ℝ)
    (display_freq_prop : Option ℝ) (vsync_to_photons_prop : Option ℝ) : ℝ :=
  match seconds_last_vsync with
  | none => 0.04
  | some seconds_last_vsync =>
    let display_freq := display_freq_prop.getD 90.0
    let frame_duration := 1.0 / display_freq
    match vsync_to_photons_prop with
    | some vsync_to_photons => frame_duration - seconds_last_vsync + vsync_to_photons
    | none => 0.04

/-- The spec's `predict_seconds` policy, written following the spec's own case
list (section 4.3): unavailable vsync time ↦ `0.04`; else
`frame_duration = 1 / display_hz` with `display_hz` defaulting to `90.0`;
known photon latency ↦ `frame_duration - last_vsync + vsync_to_photon`;
unknown photon latency ↦ `0.04`.  Used only to compare against the
source-derived `get_seconds_to_photons`. -/
def predict_seconds_spec (last_vsync_seconds : Option ℝ)
    (display_hz : Option ℝ) (vsync_to_photon_seconds : Option ℝ) : ℝ :=
  match last_vsync_seconds, display_hz, vsync_to_photon_seconds with
  | none, _, _ => 0.04
  | some _, _, none => 0.04
  | some lv, some hz, some vp => 1 / hz - lv + vp
  | some lv, none, some vp => 1 / 90.0 - lv + vp

/-! ## Matrices and tracked poses

The source stores 4x4 matrices as flat `[f32; 16]` arrays in row-major
order (`openvr_matrix34_to_array` writes `m[i][j]` at position `4*i+j`);
we model such an array as `Matrix (Fin 4) (Fin 4) ℝ` with entry `(i, j)`
holding `m[i][j]`.  OpenVR's `HmdMatrix34_t` is `Matrix (Fin 3) (Fin 4) ℝ`. -/

abbrev Mat4 := Matrix (Fin 4) (Fin 4) ℝ

abbrev Mat34 := Matrix (Fin 3) (Fin 4) ℝ

/-- Embedding of `openvr_matrix34_to_array` (device.rs 349-354): copy the
three rows of the 3x4 affine matrix and append the homogeneous row
`0 0 0 1`. -/
def openvr_matrix34_to_array (m : Mat34) : Mat4 :=
  !![m 0 0, m 0 1, m 0 2, m 0 3;
     m 1 0, m 1 1, m 1 2, m 1 3;
     m 2 0, m 2 1, m 2 2, m 2 3;
     0, 0, 0, 1]

/-- Modelled from the spec: `utils::multiply_matrix` lives outside the
excerpted sources; spec section 4.4 step 3 says the head transform is
multiplied by each eye-to-head offset transform, so it is 4x4 matrix
multiplication of its two arguments in order. -/
def multiply_matrix (a b : Mat4) : Mat4 := a * b

/-- One `TrackedDevicePose_t` sample as consumed by the pipeline
(`mDeviceToAbsoluteTracking`, `bPoseIsValid`, `vVelocity`,
`vAngularVelocity`); the C99 integer flag `bPoseIsValid` (compared against
`0` in the source) is modelled as a `Bool`. -/
structure TrackedDevicePose where
  mDeviceToAbsoluteTracking : Mat34
  bPoseIsValid : Bool
  vVelocity : ℝ × ℝ × ℝ
  vAngularVelocity : ℝ × ℝ × ℝ

/-- Embedding of `fetch_view_matrix` (device.rs 284-302) given the tracked
pose sample at the device's index: the invalid flag substitutes
`identity_matrix!()`, otherwise the raw 3x4 device-to-absolute transform is
expanded to 4x4. -/
def fetch_view_matrix (pose : TrackedDevicePose) : Mat4 :=
  if pose.bPoseIsValid = false then 1
  else openvr_matrix34_to_array pose.mDeviceToAbsoluteTracking

/-- Modelled from the spec: the `VRFrameData` struct (two 16-float
projection matrices and two 16-float view matrices) is declared outside the
excerpted sources (spec section 3, FrameData). -/
structure VRFrameData where
  left_projection_matrix : Mat4
  left_view_matrix : Mat4
  right_projection_matrix : Mat4
  right_view_matrix : Mat4

/-- Embedding of `get_frame_data` (device.rs 106-124).  The per-eye
projection matrices are produced verbatim by the vendor call inside
`fetch_projection_matrix` (reshaped by the identity-layout
`openvr_matrix44_to_array`), so they enter as the acquired `Mat4` values;
the eye-to-head transforms enter as the acquired raw 3x4 matrices. -/
def get_frame_data (left_projection right_projection : Mat4)
    (pose : TrackedDevicePose) (left_eye right_eye : Mat34) : VRFrameData :=
  let view_matrix := fetch_view_matrix pose
  let left_eye4 := openvr_matrix34_to_array left_eye
  let right_eye4 := openvr_matrix34_to_array right_eye
  { left_projection_matrix := left_projection
    left_view_matrix := multiply_matrix view_matrix left_eye4
    right_projection_matrix := right_projection
    right_view_matrix := multiply_matrix view_matrix right_eye4 }

/-! ## Normalized poses -/

/-- Modelled from the spec: the `VRPose` struct is declared outside the
excerpted sources; spec section 3 (NormalizedPose) lists six optional
fields, each fully populated or entirely absent. -/
structure VRPose where
  orientation : Option (ℝ × ℝ × ℝ × ℝ) := none
  position : Option (ℝ × ℝ × ℝ) := none
  linear_velocity : Option (ℝ × ℝ × ℝ) := none
  angular_velocity : Option (ℝ × ℝ × ℝ) := none
  linear_acceleration : Option (ℝ × ℝ × ℝ) := none
  angular_acceleration : Option (ℝ × ℝ × ℝ) := none

/-- Embedding of `openvr_matrix_to_position` (device.rs 365-367): the
translation column `m[0][3], m[1][3], m[2][3]`. -/
def openvr_matrix_to_position (m : Mat34) : ℝ × ℝ × ℝ := (m 0 3, m 1 3, m 2 3)

/-! ## Rotation-matrix-to-quaternion decomposition

`rot_matrix_to_quat` (device.rs 377-439), split into its two phases:
column normalization and quaternion extraction. -/

/-- The squared length `a*a + b*b + c*c` computed for each rotation-matrix
column before normalization (device.rs 385, 392, 399). -/
def colLenSq (a b c : ℝ) : ℝ := a * a + b * b + c * c

/-- One column-normalization step of `rot_matrix_to_quat` (device.rs
385-405): scale the column by `1 / len.sqrt()` only when the squared
length `len` is neither `1` nor `0`. -/
def normalizeCol (a b c : ℝ) : ℝ × ℝ × ℝ :=
  let len := colLenSq a b c
  if len ≠ 1 ∧ len ≠ 0 then
    let l := 1 / Real.sqrt len
    (a * l, b * l, c * l)
  else (a, b, c)

/-- The quaternion-extraction phase of `rot_matrix_to_quat` (device.rs
407-438), applied to the column-normalized entries; returns `(x, y, z, w)`. -/
def quatDecompose (m00 m01 m02 m10 m11 m12 m20 m21 m22 : ℝ) : ℝ × ℝ × ℝ × ℝ :=
  let t := m00 + m11 + m22
  if t ≥ 0 then
    let s := Real.sqrt (t + 1)
    let w := 0.5 * s
    let s' := 0.5 / s
    ((m21 - m12) * s', (m02 - m20) * s', (m10 - m01) * s', w)
  else if m00 > m11 ∧ m00 > m22 then
    let s := Real.sqrt (1 + m00 - m11 - m22)
    let x := s * 0.5
    let s' := 0.5 / s
    (x, (m10 + m01) * s', (m02 + m20) * s', (m21 - m12) * s')
  else if m11 > m22 then
    let s := Real.sqrt (1 + m11 - m00 - m22)
    let y := s * 0.5
    let s' := 0.5 / s
    ((m10 + m01) * s', y, (m21 + m12) * s', (m02 - m20) * s')
  else
    let s := Real.sqrt (1 + m22 - m00 - m11)
    let z := s * 0.5
    let s' := 0.5 / s
    ((m02 + m20) * s', (m21 + m12) * s', z, (m10 - m01) * s')

/-- Embedding of `rot_matrix_to_quat` (device.rs 377-439): normalize the
three columns `(m00,m10,m20)`, `(m01,m11,m21)`, `(m02,m12,m22)`, then
extract the quaternion. -/
def rot_matrix_to_quat (m00 m01 m02 m10 m11 m12 m20 m21 m22 : ℝ) :
    ℝ × ℝ × ℝ × ℝ :=
  let c0 := normalizeCol m00 m10 m20
  let c1 := normalizeCol m01 m11 m21
  let c2 := normalizeCol m02 m12 m22
  quatDecompose c0.1 c1.1 c2.1 c0.2.1 c1.2.1 c2.2.1 c0.2.2 c1.2.2 c2.2.2

/-- Embedding of `openvr_matrix_to_quat` (device.rs 370-374): feed the 3x3
rotation submatrix of the 3x4 transform, row by row. -/
def openvr_matrix_to_quat (m : Mat34) : ℝ × ℝ × ℝ × ℝ :=
  rot_matrix_to_quat (m 0 0) (m 0 1) (m 0 2)
                     (m 1 0) (m 1 1) (m 1 2)
                     (m 2 0) (m 2 1) (m 2 2)

/-- Embedding of `get_pose` (device.rs 66-103) given the tracked pose
sample at the device's index: an invalid sample returns the default (all
fields absent); otherwise orientation, position, linear velocity and
angular velocity are populated, and both accelerations stay absent
(OpenVR does not expose them). -/
def get_pose (pose : TrackedDevicePose) : VRPose :=
  if pose.bPoseIsValid = false then {}
  else
    { orientation := some (openvr_matrix_to_quat pose.mDeviceToAbsoluteTracking)
      position := some (openvr_matrix_to_position pose.mDeviceToAbsoluteTracking)
      linear_velocity := some pose.vVelocity
      angular_velocity := some pose.vAngularVelocity
      linear_acceleration := none
      angular_acceleration := none }

/-! ## Field-of-view normalizer -/

/-- `f32::to_degrees`: multiply by `180 / π`. -/
def toDegrees (x : ℝ) : ℝ := x * (180 / Real.pi)

/-- Modelled from the spec: the `VRFieldOfView` struct is declared outside
the excerpted sources; spec section 3 (EyeFieldOfView) lists the four
signed degree offsets. -/
structure VRFieldOfView where
  up_degrees : ℝ
  right_degrees : ℝ
  down_degrees : ℝ
  left_degrees : ℝ

/-- Embedding of `fetch_field_of_view` (device.rs 200-211) given the four
raw tangent values filled by `GetProjectionRaw` (in its `left, right, up,
down` out-parameter order): each is converted by `atan().to_degrees()`,
and the up and left results are negated. -/
def fetch_field_of_view (left right up down : ℝ) : VRFieldOfView :=
  { up_degrees := -(toDegrees (Real.arctan up))
    right_degrees := toDegrees (Real.arctan right)
    down_degrees := toDegrees (Real.arctan down)
    left_degrees := -(toDegrees (Real.arctan left)) }

/-! ## Spec-side definitions used for comparison -/

/-- The spec's column-normalization step, written following the spec's
words (section 4.1 step 1): normalize the column to unit length — divide by
the length — only if its squared length is neither 0 nor 1.  Used only to
compare against the source-derived `normalizeCol`. -/
def normalizeColSpec (a b c : ℝ) : ℝ × ℝ × ℝ :=
  let len := a * a + b * b + c * c
  if len = 0 ∨ len = 1 then (a, b, c)
  else (a / Real.sqrt len, b / Real.sqrt len, c / Real.sqrt len)

/-- The spec's quaternion extraction, written following the spec's words
(section 4.1 steps 2-4 and the claim text): compute the trace `t`; for
`t ≥ 0` the dominant component is `w = 0.5*sqrt(1+t)`; otherwise the
largest diagonal entry selects the dominant axis component `0.5*sqrt(1+…)`;
the remaining three components are off-diagonal differences/sums scaled by
`0.5/s`.  Used only to compare against the source-derived `quatDecompose`. -/
def quatDecomposeSpec (m00 m01 m02 m10 m11 m12 m20 m21 m22 : ℝ) :
    ℝ × ℝ × ℝ × ℝ :=
  let t := m00 + m11 + m22
  if t ≥ 0 then
    let s := Real.sqrt (1 + t)
    (0.5 / s * (m21 - m12), 0.5 / s * (m02 - m20), 0.5 / s * (m10 - m01), 0.5 * s)
  else if m00 > m11 ∧ m00 > m22 then
    let s := Real.sqrt (1 + m00 - m11 - m22)
    (0.5 * s, 0.5 / s * (m10 + m01), 0.5 / s * (m02 + m20), 0.5 / s * (m21 - m12))
  else if m11 > m22 then
    let s := Real.sqrt (1 + m11 - m00 - m22)
    (0.5 / s * (m10 + m01), 0.5 * s, 0.5 / s * (m21 + m12), 0.5 / s * (m02 - m20))
  else
    let s := Real.sqrt (1 + m22 - m00 - m11)
    (0.5 / s * (m02 + m20), 0.5 / s * (m21 + m12), 0.5 * s, 0.5 / s * (m10 - m01))

/-- The spec's full matrix-to-quaternion conversion: normalize the three
columns, then extract.  Used only to compare against the source-derived
`rot_matrix_to_quat`. -/
def rot_matrix_to_quat_spec (m00 m01 m02 m10 m11 m12 m20 m21 m22 : ℝ) :
    ℝ × ℝ × ℝ × ℝ :=
  let c0 := normalizeColSpec m00 m10 m20
  let c1 := normalizeColSpec m01 m11 m21
  let c2 := normalizeColSpec m02 m12 m22
  quatDecomposeSpec c0.1 c1.1 c2.1 c0.2.1 c1.2.1 c2.2.1 c0.2.2 c1.2.2 c2.2.2

/-- The argument of the square root actually taken by the branch of
`quatDecompose` selected for diagonal entries `m00, m11, m22` (the branch
conditions only inspect the diagonal). -/
def decomposeSqrtArg (m00 m11 m22 : ℝ) : ℝ :=
  let t := m00 + m11 + m22
  if t ≥ 0 then t + 1
  else if m00 > m11 ∧ m00 > m22 then 1 + m00 - m11 - m22
  else if m11 > m22 then 1 + m11 - m00 - m22
  else 1 + m22 - m00 - m11

/-- A 3x3 rotation matrix given by its nine entries. -/
structure Mat3 where
  m00 : ℝ
  m01 : ℝ
  m02 : ℝ
  m10 : ℝ
  m11 : ℝ
  m12 : ℝ
  m20 : ℝ
  m21 : ℝ
  m22 : ℝ

/-- Modelled from the spec: the rotation matrix corresponding to a
quaternion `(x, y, z, w)` — the reconstruction direction of the spec's
round-trip law (section 8), which has no counterpart in the excerpted
sources.  Standard right-handed convention matching the decomposition's
off-diagonal formulas (`m21 - m12 = 4xw`, `m10 + m01 = 4xy`, …). -/
def quatToMat3 (x y z w : ℝ) : Mat3 :=
  { m00 := 1 - 2*y^2 - 2*z^2
    m01 := 2*(x*y - z*w)
    m02 := 2*(x*z + y*w)
    m10 := 2*(x*y + z*w)
    m11 := 1 - 2*x^2 - 2*z^2
    m12 := 2*(y*z - x*w)
    m20 := 2*(x*z - y*w)
    m21 := 2*(y*z + x*w)
    m22 := 1 - 2*x^2 - 2*y^2 }

/-- Squared euclidean norm of a quaternion `(x, y, z, w)`. -/
def quatNormSq (q : ℝ × ℝ × ℝ × ℝ) : ℝ :=
  q.1^2 + q.2.1^2 + q.2.2.1^2 + q.2.2.2^2

/-- `rot_matrix_to_quat` applied to the nine entries of a `Mat3`. -/
def rotMat3ToQuat (m : Mat3) : ℝ × ℝ × ℝ × ℝ :=
  rot_matrix_to_quat m.m00 m.m01 m.m02 m.m10 m.m11 m.m12 m.m20 m.m21 m.m22

/-! ## Theorems -/

/-- C3: the time predictor follows exactly the spec's case analysis —
unavailable vsync time returns `0.04`; otherwise `frame_duration = 1 /
display_hz` with `display_hz` defaulting to `90.0`, returning
`frame_duration - last_vsync + vsync_to_photon` when the photon latency is
known and `0.04` when it is not. -/
theorem C3_predictor_case_analysis (l f v : Option ℝ) :
    get_seconds_to_photons l f v = predict_seconds_spec l f v := by
  cases l <;> cases f <;> cases v <;>
    simp [get_seconds_to_photons, predict_seconds_spec] <;> norm_num

/-- C2 (as stated) is false: with all three measurements available,
a last-vsync time of `1` second against a 90 Hz display and zero photon
latency makes `get_seconds_to_photons` return `1/90 - 1 + 0 < 0`. -/
theorem C2_counterexample :
    get_seconds_to_photons (some 1) (some 90) (some 0) < 0 := by
  norm_num [get_seconds_to_photons, Option.getD]

/-- C2 amended: the value is non-negative in both fallback cases (it is the
constant `0.04`), and when all three measurements are available it is
non-negative provided the last-vsync time does not exceed
`frame_duration + vsync_to_photon`. -/
theorem C2_seconds_to_photons_nonneg :
    (∀ f v : Option ℝ, 0 ≤ get_seconds_to_photons none f v) ∧
    (∀ (l : ℝ) (f : Option ℝ), 0 ≤ get_seconds_to_photons (some l) f none) ∧
    (∀ (l : ℝ) (f : Option ℝ) (v : ℝ), l ≤ 1 / f.getD 90.0 + v →
      0 ≤ get_seconds_to_photons (some l) f (some v)) := by
  refine ⟨fun f v => by norm_num [get_seconds_to_photons],
          fun l f => by norm_num [get_seconds_to_photons],
          fun l f v h => ?_⟩
  simp only [get_seconds_to_photons]
  norm_num at h ⊢
  linarith

/-- Witness for `C2_seconds_to_photons_nonneg`: the spec's own example
inputs (`last_vsync = 0`, `90` Hz, photon latency `0.011`). -/
theorem C2_witness :
    0 ≤ get_seconds_to_photons (some 0) (some 90) (some 0.011) :=
  C2_seconds_to_photons_nonneg.2.2 0 (some 90) 0.011
    (by norm_num [Option.getD])

/-- C10: `get_pose` populates orientation, position, linear velocity and
angular velocity exactly when the tracked pose sample is valid (an invalid
sample leaves every field absent), and never populates either
acceleration. -/
theorem C10_get_pose_fields (s : TrackedDevicePose) :
    (get_pose s).orientation.isSome = s.bPoseIsValid ∧
    (get_pose s).position.isSome = s.bPoseIsValid ∧
    (get_pose s).linear_velocity.isSome = s.bPoseIsValid ∧
    (get_pose s).angular_velocity.isSome = s.bPoseIsValid ∧
    (get_pose s).linear_acceleration = none ∧
    (get_pose s).angular_acceleration = none := by
  cases h : s.bPoseIsValid <;> simp [get_pose, h]

/-- C7: the field-of-view normalizer returns `atan` of each raw tangent
converted to degrees, negating up and left and leaving down and right
unnegated; on the four inputs `tan 10°` (`10° = π/18`) it yields
up `-10°`, right `10°`, down `10°`, left `-10°`. -/
theorem C7_fov_normalizer :
    (∀ l r u d : ℝ, fetch_field_of_view l r u d =
      ⟨-(toDegrees (Real.arctan u)), toDegrees (Real.arctan r),
        toDegrees (Real.arctan d), -(toDegrees (Real.arctan l))⟩) ∧
    fetch_field_of_view (Real.tan (π/18)) (Real.tan (π/18))
        (Real.tan (π/18)) (Real.tan (π/18)) = ⟨-10, 10, 10, -10⟩ := by
  constructor
  · intro l r u d; rfl
  · have hb₁ : -(π/2) < π/18 := by
      have := Real.pi_pos; linarith
    have hb₂ : π/18 < π/2 := by
      have := Real.pi_pos; linarith
    have harc : Real.arctan (Real.tan (π/18)) = π/18 :=
      Real.arctan_tan hb₁ hb₂
    have hdeg : toDegrees (π/18) = 10 := by
      unfold toDegrees
      field_simp
      ring
    simp [fetch_field_of_view, harc, hdeg]

/-- C9: the converter maps the identity rotation matrix to exactly the
quaternion `(0, 0, 0, 1)`. -/
theorem C9_identity_to_quat :
    rot_matrix_to_quat 1 0 0 0 1 0 0 0 1 = (0, 0, 0, 1) := by
  have h4 : Real.sqrt 4 = 2 := by
    rw [show (4:ℝ) = 2^2 by norm_num, Real.sqrt_sq (by norm_num)]
  simp [rot_matrix_to_quat, normalizeCol, colLenSq, quatDecompose]
  norm_num [h4]

/-- C4: with an invalid tracked pose sample, `get_frame_data` substitutes
the identity head transform, so the assembled frame holds both projection
matrices unchanged and each view matrix equals the corresponding
eye-to-head offset transform alone — a complete `VRFrameData`, no error. -/
theorem C4_invalid_pose_identity (pl pr : Mat4) (pose : TrackedDevicePose)
    (el er : Mat34) (h : pose.bPoseIsValid = false) :
    get_frame_data pl pr pose el er =
      { left_projection_matrix := pl
        left_view_matrix := openvr_matrix34_to_array el
        right_projection_matrix := pr
        right_view_matrix := openvr_matrix34_to_array er } := by
  simp [get_frame_data, fetch_view_matrix, h, multiply_matrix, Matrix.one_mul]

/-- Witness for `C4_invalid_pose_identity` at a concrete invalid sample. -/
theorem C4_witness :
    (TrackedDevicePose.mk 0 false (0,0,0) (0,0,0)).bPoseIsValid = false ∧
    get_frame_data 1 1 (TrackedDevicePose.mk 0 false (0,0,0) (0,0,0)) 0 0 =
      { left_projection_matrix := 1
        left_view_matrix := openvr_matrix34_to_array 0
        right_projection_matrix := 1
        right_view_matrix := openvr_matrix34_to_array 0 } :=
  ⟨rfl, C4_invalid_pose_identity 1 1 (TrackedDevicePose.mk 0 false (0,0,0) (0,0,0)) 0 0 rfl⟩

/-- A concrete head pose used to refute C1: translation by one unit along
the x axis (a valid, orthonormal-rotation pose). -/
def headTrans : Mat34 := !![1,0,0,1; 0,1,0,0; 0,0,1,0]

/-- The 4x4 inverse of `headTrans`'s homogeneous expansion: translation by
minus one unit along the x axis. -/
def headTransInv : Mat4 := !![1,0,0,-1; 0,1,0,0; 0,0,1,0; 0,0,0,1]

/-- An identity eye-to-head offset (zero interpupillary displacement). -/
def identEye : Mat34 := !![1,0,0,0; 0,1,0,0; 0,0,1,0]

/-- C1 (as stated) is false: `fetch_view_matrix` passes the head pose
through un-inverted, so for the head pose `headTrans` (whose homogeneous
inverse is `headTransInv`, as the first two conjuncts certify) and an
identity eye offset, the assembled left view matrix differs from
`inverse head pose × eye offset`. -/
theorem C1_counterexample :
    multiply_matrix (openvr_matrix34_to_array headTrans) headTransInv = 1 ∧
    multiply_matrix headTransInv (openvr_matrix34_to_array headTrans) = 1 ∧
    (get_frame_data 1 1 (TrackedDevicePose.mk headTrans true (0,0,0) (0,0,0))
        identEye identEye).left_view_matrix ≠
      multiply_matrix headTransInv (openvr_matrix34_to_array identEye) := by
  refine ⟨?_, ?_, ?_⟩
  · ext i j
    fin_cases i <;> fin_cases j <;>
      simp [multiply_matrix, openvr_matrix34_to_array, headTrans, headTransInv,
            Matrix.mul_apply, Fin.sum_univ_four, Matrix.one_apply,
            Matrix.vecHead, Matrix.vecTail]
  · ext i j
    fin_cases i <;> fin_cases j <;>
      simp [multiply_matrix, openvr_matrix34_to_array, headTrans, headTransInv,
            Matrix.mul_apply, Fin.sum_univ_four, Matrix.one_apply,
            Matrix.vecHead, Matrix.vecTail]
  · intro h
    have h03 := congrFun (congrFun h 0) 3
    simp [get_frame_data, fetch_view_matrix, multiply_matrix,
          openvr_matrix34_to_array, headTrans, headTransInv, identEye,
          Matrix.mul_apply, Fin.sum_univ_four, Matrix.vecHead,
          Matrix.vecTail] at h03
    norm_num at h03

/-- C1 amended: for a valid tracked pose sample, each returned view matrix
equals the head pose transform itself (not its inverse) multiplied by the
corresponding eye-to-head offset transform. -/
theorem C1_view_matrix_formula (pl pr : Mat4) (pose : TrackedDevicePose)
    (el er : Mat34) (h : pose.bPoseIsValid = true) :
    (get_frame_data pl pr pose el er).left_view_matrix =
      multiply_matrix (openvr_matrix34_to_array pose.mDeviceToAbsoluteTracking)
        (openvr_matrix34_to_array el) ∧
    (get_frame_data pl pr pose el er).right_view_matrix =
      multiply_matrix (openvr_matrix34_to_array pose.mDeviceToAbsoluteTracking)
        (openvr_matrix34_to_array er) := by
  constructor <;> simp [get_frame_data, fetch_view_matrix, h]

/-- Witness for `C1_view_matrix_formula` at a concrete valid sample. -/
theorem C1_witness :
    (TrackedDevicePose.mk headTrans true (0,0,0) (0,0,0)).bPoseIsValid = true ∧
    ((get_frame_data 1 1 (TrackedDevicePose.mk headTrans true (0,0,0) (0,0,0))
        identEye identEye).left_view_matrix =
      multiply_matrix (openvr_matrix34_to_array headTrans)
        (openvr_matrix34_to_array identEye) ∧
    (get_frame_data 1 1 (TrackedDevicePose.mk headTrans true (0,0,0) (0,0,0))
        identEye identEye).right_view_matrix =
      multiply_matrix (openvr_matrix34_to_array headTrans)
        (openvr_matrix34_to_array identEye)) :=
  ⟨rfl, C1_view_matrix_formula 1 1
    (TrackedDevicePose.mk headTrans true (0,0,0) (0,0,0)) identEye identEye rfl⟩

/-- The source's multiply-by-reciprocal column normalization agrees with
the spec's divide-by-length description. -/
theorem normalizeCol_eq_spec (a b c : ℝ) :
    normalizeCol a b c = normalizeColSpec a b c := by
  unfold normalizeCol normalizeColSpec colLenSq
  by_cases h0 : a * a + b * b + c * c = 0
  · simp [h0]
  · by_cases h1 : a * a + b * b + c * c = 1
    · simp [h0, h1]
    · simp only [h0, h1, ne_eq, not_false_eq_true, and_self, if_true,
        or_self, if_false]
      simp [div_eq_mul_inv]

/-- The source's quaternion extraction agrees, branch by branch, with the
spec's description of the four branches. -/
theorem quatDecompose_eq_spec (m00 m01 m02 m10 m11 m12 m20 m21 m22 : ℝ) :
    quatDecompose m00 m01 m02 m10 m11 m12 m20 m21 m22 =
      quatDecomposeSpec m00 m01 m02 m10 m11 m12 m20 m21 m22 := by
  simp only [quatDecompose, quatDecomposeSpec]
  split_ifs with h1 h2 h3
  · rw [show m00 + m11 + m22 + 1 = 1 + (m00 + m11 + m22) from by ring]
    exact Prod.ext (by ring) (Prod.ext (by ring) (Prod.ext (by ring) (by ring)))
  · exact Prod.ext (by ring) (Prod.ext (by ring) (Prod.ext (by ring) (by ring)))
  · exact Prod.ext (by ring) (Prod.ext (by ring) (Prod.ext (by ring) (by ring)))
  · exact Prod.ext (by ring) (Prod.ext (by ring) (Prod.ext (by ring) (by ring)))

/-- C5: the converter follows exactly the spec's steps — conditional
column normalization (only when the squared length is neither 0 nor 1),
trace computation, dominant-component selection by `t ≥ 0` or the largest
diagonal entry with the dominant component `0.5*sqrt(1+…)`, and the other
three components scaled by `0.5/s` — i.e. it coincides with the
spec-transcribed `rot_matrix_to_quat_spec` on every input. -/
theorem C5_converter_follows_spec_steps (m00 m01 m02 m10 m11 m12 m20 m21 m22 : ℝ) :
    rot_matrix_to_quat m00 m01 m02 m10 m11 m12 m20 m21 m22 =
      rot_matrix_to_quat_spec m00 m01 m02 m10 m11 m12 m20 m21 m22 := by
  unfold rot_matrix_to_quat rot_matrix_to_quat_spec
  rw [← normalizeCol_eq_spec, ← normalizeCol_eq_spec, ← normalizeCol_eq_spec,
    quatDecompose_eq_spec]

/-- C6: the conversion is total and never divides by zero or takes the
square root of a negative number — every column's squared length is
non-negative, the normalization divisor `sqrt len` is positive exactly on
the path where the division occurs (`len ≠ 0`), the argument of the square
root taken by the selected extraction branch is at least 1 (so also the
`0.5/s` divisor is positive), and the whole conversion is the composition
of these two total phases. -/
theorem C6_converter_total :
    (∀ a b c : ℝ, 0 ≤ colLenSq a b c) ∧
    (∀ a b c : ℝ, colLenSq a b c ≠ 0 → 0 < Real.sqrt (colLenSq a b c)) ∧
    (∀ m00 m11 m22 : ℝ, 1 ≤ decomposeSqrtArg m00 m11 m22) ∧
    (∀ m00 m11 m22 : ℝ, 0 < Real.sqrt (decomposeSqrtArg m00 m11 m22)) ∧
    (∀ m00 m01 m02 m10 m11 m12 m20 m21 m22 : ℝ,
      rot_matrix_to_quat m00 m01 m02 m10 m11 m12 m20 m21 m22 =
        quatDecompose (normalizeCol m00 m10 m20).1 (normalizeCol m01 m11 m21).1
          (normalizeCol m02 m12 m22).1 (normalizeCol m00 m10 m20).2.1
          (normalizeCol m01 m11 m21).2.1 (normalizeCol m02 m12 m22).2.1
          (normalizeCol m00 m10 m20).2.2 (normalizeCol m01 m11 m21).2.2
          (normalizeCol m02 m12 m22).2.2) := by
  have hlen : ∀ a b c : ℝ, 0 ≤ colLenSq a b c := by
    intro a b c
    unfold colLenSq
    nlinarith [mul_self_nonneg a, mul_self_nonneg b, mul_self_nonneg c]
  have harg : ∀ m00 m11 m22 : ℝ, 1 ≤ decomposeSqrtArg m00 m11 m22 := by
    intro m00 m11 m22
    simp only [decomposeSqrtArg]
    split_ifs with h1 h2 h3
    · linarith
    · linarith [h2.1, h2.2, not_le.mp h1]
    · by_cases hd : m00 > m11
      · have h22 : ¬ m00 > m22 := fun hc => h2 ⟨hd, hc⟩
        linarith [not_le.mp h1, not_lt.mp h22, h3]
      · linarith [not_le.mp h1, not_lt.mp hd, h3]
    · by_cases hd : m00 > m11
      · have h22 : ¬ m00 > m22 := fun hc => h2 ⟨hd, hc⟩
        linarith [not_le.mp h1, not_lt.mp h22, not_lt.mp h3]
      · linarith [not_le.mp h1, not_lt.mp hd, not_lt.mp h3]
  refine ⟨hlen, fun a b c h => ?_, harg, fun m00 m11 m22 => ?_, fun _ _ _ _ _ _ _ _ _ => rfl⟩
  · exact Real.sqrt_pos.mpr (lt_of_le_of_ne (hlen a b c) (Ne.symm h))
  · exact Real.sqrt_pos.mpr (by linarith [harg m00 m11 m22])

/-- Witness for `C6_converter_total`: the normalization divisor is positive
for a concrete non-unit, non-zero column. -/
theorem C6_witness : 0 < Real.sqrt (colLenSq 2 0 0) :=
  C6_converter_total.2.1 2 0 0 (by norm_num [colLenSq])

/-- A column whose squared length is already `1` passes through the
normalization step untouched. -/
theorem normalizeCol_len_one (a b c : ℝ) (h : colLenSq a b c = 1) :
    normalizeCol a b c = (a, b, c) := by
  unfold normalizeCol
  simp [h]

/-- On a matrix whose three columns are unit-length the conversion is just
the extraction phase. -/
theorem rot_matrix_to_quat_unit_cols (m00 m01 m02 m10 m11 m12 m20 m21 m22 : ℝ)
    (h0 : colLenSq m00 m10 m20 = 1) (h1 : colLenSq m01 m11 m21 = 1)
    (h2 : colLenSq m02 m12 m22 = 1) :
    rot_matrix_to_quat m00 m01 m02 m10 m11 m12 m20 m21 m22 =
      quatDecompose m00 m01 m02 m10 m11 m12 m20 m21 m22 := by
  unfold rot_matrix_to_quat
  rw [normalizeCol_len_one _ _ _ h0, normalizeCol_len_one _ _ _ h1,
    normalizeCol_len_one _ _ _ h2]

/-- The sign factor `u / |u|` squares to one for nonzero `u`. -/
theorem sign_sq (u : ℝ) (hu : u ≠ 0) : (u / |u|)^2 = 1 := by
  rw [div_pow, sq_abs]
  exact div_self (pow_ne_zero 2 hu)

/-- Scaling a quaternion by a unit factor leaves its rotation matrix
unchanged. -/
theorem quatToMat3_scale (c x y z w : ℝ) (hc : c^2 = 1) :
    quatToMat3 (c*x) (c*y) (c*z) (c*w) = quatToMat3 x y z w := by
  unfold quatToMat3
  simp only [Mat3.mk.injEq]
  refine ⟨?_, ?_, ?_, ?_, ?_, ?_, ?_, ?_, ?_⟩
  · linear_combination (-2*y^2 - 2*z^2) * hc
  · linear_combination (2*x*y - 2*z*w) * hc
  · linear_combination (2*x*z + 2*y*w) * hc
  · linear_combination (2*x*y + 2*z*w) * hc
  · linear_combination (-2*x^2 - 2*z^2) * hc
  · linear_combination (2*y*z - 2*x*w) * hc
  · linear_combination (2*x*z - 2*y*w) * hc
  · linear_combination (2*y*z + 2*x*w) * hc
  · linear_combination (-2*x^2 - 2*y^2) * hc

/-- C8: round-trip law.  Every special-orthogonal matrix is the rotation
matrix of some unit quaternion `(px, py, pz, pw)`; for every such matrix
the converter returns a quaternion of exact unit norm whose reconstructed
rotation matrix is exactly the input matrix. -/
theorem C8_round_trip (px py pz pw : ℝ) (h : px^2 + py^2 + pz^2 + pw^2 = 1) :
    quatNormSq (rotMat3ToQuat (quatToMat3 px py pz pw)) = 1 ∧
    quatToMat3 (rotMat3ToQuat (quatToMat3 px py pz pw)).1
        (rotMat3ToQuat (quatToMat3 px py pz pw)).2.1
        (rotMat3ToQuat (quatToMat3 px py pz pw)).2.2.1
        (rotMat3ToQuat (quatToMat3 px py pz pw)).2.2.2 =
      quatToMat3 px py pz pw := by
  obtain ⟨c, hc, hq⟩ : ∃ c : ℝ, c^2 = 1 ∧
      rotMat3ToQuat (quatToMat3 px py pz pw) = (c*px, c*py, c*pz, c*pw) := by
    have hcol0 : colLenSq (1 - 2*py^2 - 2*pz^2) (2*(px*py + pz*pw))
        (2*(px*pz - py*pw)) = 1 := by
      unfold colLenSq
      linear_combination (4*py^2 + 4*pz^2) * h
    have hcol1 : colLenSq (2*(px*py - pz*pw)) (1 - 2*px^2 - 2*pz^2)
        (2*(py*pz + px*pw)) = 1 := by
      unfold colLenSq
      linear_combination (4*px^2 + 4*pz^2) * h
    have hcol2 : colLenSq (2*(px*pz + py*pw)) (2*(py*pz - px*pw))
        (1 - 2*px^2 - 2*py^2) = 1 := by
      unfold colLenSq
      linear_combination (4*px^2 + 4*py^2) * h
    have hred : rotMat3ToQuat (quatToMat3 px py pz pw) =
        quatDecompose (1 - 2*py^2 - 2*pz^2) (2*(px*py - pz*pw)) (2*(px*pz + py*pw))
          (2*(px*py + pz*pw)) (1 - 2*px^2 - 2*pz^2) (2*(py*pz - px*pw))
          (2*(px*pz - py*pw)) (2*(py*pz + px*pw)) (1 - 2*px^2 - 2*py^2) :=
      rot_matrix_to_quat_unit_cols _ _ _ _ _ _ _ _ _ hcol0 hcol1 hcol2
    rw [hred]
    simp only [quatDecompose]
    split_ifs with hb1 hb2 hb3
    · -- trace branch: the dominant component comes from pw
      have hw1 : 1 ≤ 4*pw^2 := by linarith [hb1]
      have hw : pw ≠ 0 := by
        intro h0; rw [h0] at hw1; norm_num at hw1
      have habs : |pw| ≠ 0 := abs_ne_zero.mpr hw
      have hs : Real.sqrt (1 - 2*py^2 - 2*pz^2 + (1 - 2*px^2 - 2*pz^2) +
          (1 - 2*px^2 - 2*py^2) + 1) = 2*|pw| := by
        rw [show 1 - 2*py^2 - 2*pz^2 + (1 - 2*px^2 - 2*pz^2) +
            (1 - 2*px^2 - 2*py^2) + 1 = (2*|pw|)^2 from by
          rw [mul_pow, sq_abs]; linear_combination (-4:ℝ) * h]
        exact Real.sqrt_sq (by positivity)
      rw [hs]
      refine ⟨pw/|pw|, sign_sq pw hw, ?_⟩
      refine Prod.ext ?_ (Prod.ext ?_ (Prod.ext ?_ ?_))
      · field_simp; ring
      · field_simp; ring
      · field_simp; ring
      · field_simp
        linear_combination sq_abs pw
    · -- m00-dominant branch: the dominant component comes from px
      have hx1 : py^2 < px^2 := by linarith [hb2.1]
      have hx : px ≠ 0 := by
        intro h0; rw [h0] at hx1; nlinarith [sq_nonneg py]
      have habs : |px| ≠ 0 := abs_ne_zero.mpr hx
      have hs : Real.sqrt (1 + (1 - 2*py^2 - 2*pz^2) - (1 - 2*px^2 - 2*pz^2) -
          (1 - 2*px^2 - 2*py^2)) = 2*|px| := by
        rw [show 1 + (1 - 2*py^2 - 2*pz^2) - (1 - 2*px^2 - 2*pz^2) -
            (1 - 2*px^2 - 2*py^2) = (2*|px|)^2 from by
          rw [mul_pow, sq_abs]; ring]
        exact Real.sqrt_sq (by positivity)
      rw [hs]
      refine ⟨px/|px|, sign_sq px hx, ?_⟩
      refine Prod.ext ?_ (Prod.ext ?_ (Prod.ext ?_ ?_))
      · field_simp
        linear_combination sq_abs px
      · field_simp; ring
      · field_simp; ring
      · field_simp; ring
    · -- m11-dominant branch: the dominant component comes from py
      have hy1 : pz^2 < py^2 := by linarith [hb3]
      have hy : py ≠ 0 := by
        intro h0; rw [h0] at hy1; nlinarith [sq_nonneg pz]
      have habs : |py| ≠ 0 := abs_ne_zero.mpr hy
      have hs : Real.sqrt (1 + (1 - 2*px^2 - 2*pz^2) - (1 - 2*py^2 - 2*pz^2) -
          (1 - 2*px^2 - 2*py^2)) = 2*|py| := by
        rw [show 1 + (1 - 2*px^2 - 2*pz^2) - (1 - 2*py^2 - 2*pz^2) -
            (1 - 2*px^2 - 2*py^2) = (2*|py|)^2 from by
          rw [mul_pow, sq_abs]; ring]
        exact Real.sqrt_sq (by positivity)
      rw [hs]
      refine ⟨py/|py|, sign_sq py hy, ?_⟩
      refine Prod.ext ?_ (Prod.ext ?_ (Prod.ext ?_ ?_))
      · field_simp; ring
      · field_simp
        linear_combination sq_abs py
      · field_simp; ring
      · field_simp; ring
    · -- m22-dominant branch: the dominant component comes from pz
      have hyz : py^2 ≤ pz^2 := by linarith [not_lt.mp hb3]
      have hxz : px^2 ≤ pz^2 := by
        rcases not_and_or.mp hb2 with hA | hB
        · linarith [not_lt.mp hA]
        · linarith [not_lt.mp hB]
      have hz1 : 1 ≤ 4*pz^2 := by linarith [not_le.mp hb1]
      have hz : pz ≠ 0 := by
        intro h0; rw [h0] at hz1; norm_num at hz1
      have habs : |pz| ≠ 0 := abs_ne_zero.mpr hz
      have hs : Real.sqrt (1 + (1 - 2*px^2 - 2*py^2) - (1 - 2*py^2 - 2*pz^2) -
          (1 - 2*px^2 - 2*pz^2)) = 2*|pz| := by
        rw [show 1 + (1 - 2*px^2 - 2*py^2) - (1 - 2*py^2 - 2*pz^2) -
            (1 - 2*px^2 - 2*pz^2) = (2*|pz|)^2 from by
          rw [mul_pow, sq_abs]; ring]
        exact Real.sqrt_sq (by positivity)
      rw [hs]
      refine ⟨pz/|pz|, sign_sq pz hz, ?_⟩
      refine Prod.ext ?_ (Prod.ext ?_ (Prod.ext ?_ ?_))
      · field_simp; ring
      · field_simp; ring
      · field_simp
        linear_combination sq_abs pz
      · field_simp; ring
  rw [hq]
  constructor
  · unfold quatNormSq
    linear_combination (px^2 + py^2 + pz^2 + pw^2) * hc + h
  · exact quatToMat3_scale c px py pz pw hc

/-- Witness for `C8_round_trip` at the unit quaternion `(0, 0, 0, 1)`. -/
theorem C8_witness :
    ((0:ℝ)^2 + 0^2 + 0^2 + 1^2 = 1) ∧
    (quatNormSq (rotMat3ToQuat (quatToMat3 0 0 0 1)) = 1 ∧
    quatToMat3 (rotMat3ToQuat (quatToMat3 0 0 0 1)).1
        (rotMat3ToQuat (quatToMat3 0 0 0 1)).2.1
        (rotMat3ToQuat (quatToMat3 0 0 0 1)).2.2.1
        (rotMat3ToQuat (quatToMat3 0 0 0 1)).2.2.2 =
      quatToMat3 0 0 0 1) :=
  ⟨by norm_num, C8_round_trip 0 0 0 1 (by norm_num)⟩

end

end RustWebVR
